import Mathlib

/-!
Verification of the SerialScaleServer core (`src/scale.py`) against its
specification.  The Python module is shallowly embedded: the mutable
`SerialScaleReader` object becomes explicit state passing over a
`SerialPort` structure, the serial device becomes an explicit `Device`
value describing the bytes (and faults) the hardware produces, and the
poll loop of `read_weight` becomes a fuelled recursive function that
also records a trace of its observable events (timeout checks, sleeps,
drained bytes).  Python `float` arithmetic on the wait times is modelled
with `ℚ`; all values involved (0.25, 0.5, 1.5, …) are small dyadic
rationals on which Python floats are exact.
-/

namespace SerialScale

/-! ## Python value and string-parsing models

`update_settings` records, in its error entries, whatever the local
variable holds at the time of the error: a string, or the result of
`int(...)` / `float(...)` when the conversion succeeded.  `PyVal`
models that heterogeneous value. -/

/-- A Python value as it appears in a `given_value` error field:
the raw string, or the numeric result of a successful conversion. -/
inductive PyVal where
  | str (s : String)
  | pyfloat (q : ℚ)
  | pyint (n : Int)
  deriving DecidableEq, Repr

/-- Whitespace stripped from both ends, as Python `int()` / `float()`
do before parsing (structural, over the character list). -/
def pyStrip (cs : List Char) : List Char :=
  ((cs.dropWhile Char.isWhitespace).reverse.dropWhile Char.isWhitespace).reverse

/-- Value of a nonempty list of decimal digit characters. -/
def digitsVal (cs : List Char) : Option Nat :=
  if cs ≠ [] ∧ cs.all Char.isDigit then
    some (cs.foldl (fun a c => 10 * a + (c.toNat - 48)) 0)
  else none

/-- Model of Python `int(s)` on a string: optional surrounding
whitespace, an optional sign, then decimal digits. -/
def pyInt (s : String) : Option Int :=
  match pyStrip s.data with
  | '-' :: rest => (digitsVal rest).map (fun n => -(n : Int))
  | '+' :: rest => (digitsVal rest).map (fun n => (n : Int))
  | rest => (digitsVal rest).map (fun n => (n : Int))

/-- Unsigned decimal with an optional single point: `"12"`, `"1.5"`,
`".5"`, `"2."`.  Returns integer part, fraction digits value and
fraction length. -/
def pyFloatCore (cs : List Char) : Option (Nat × Nat × Nat) :=
  match cs.span Char.isDigit with
  | (intPart, []) => (digitsVal intPart).map (fun n => (n, 0, 0))
  | (intPart, '.' :: fracPart) =>
    if fracPart.all Char.isDigit ∧ (intPart ≠ [] ∨ fracPart ≠ []) then
      some (intPart.foldl (fun a c => 10 * a + (c.toNat - 48)) 0,
            fracPart.foldl (fun a c => 10 * a + (c.toNat - 48)) 0,
            fracPart.length)
    else none
  | _ => none

/-- The textual part of Python `float(s)`: optional surrounding
whitespace, an optional sign, digits with an optional single decimal
point (exponents, `inf` and `nan` are outside the inputs the
settings of this program can meet). -/
def pyFloatRaw (s : String) : Option (Bool × Nat × Nat × Nat) :=
  match pyStrip s.data with
  | '-' :: rest => (pyFloatCore rest).map (fun p => (true, p))
  | '+' :: rest => (pyFloatCore rest).map (fun p => (false, p))
  | rest => (pyFloatCore rest).map (fun p => (false, p))

/-- The rational value of a parsed float: `ip + f / 10 ^ k`, negated
when the sign was negative. -/
def ratOfParts (neg : Bool) (p : Nat × Nat × Nat) : ℚ :=
  if neg then -((p.1 : ℚ) + (p.2.1 : ℚ) / (10 : ℚ) ^ p.2.2)
  else (p.1 : ℚ) + (p.2.1 : ℚ) / (10 : ℚ) ^ p.2.2

/-- Model of Python `float(s)` on the decimal strings relevant here. -/
def pyFloat (s : String) : Option ℚ :=
  (pyFloatRaw s).map (fun p => ratOfParts p.1 p.2)

/-- ASCII lowercasing, as Python `str.lower()` acts on the ASCII
strings that the option sets of this program involve. -/
def pyLower (s : String) : String :=
  ⟨s.data.map Char.toLower⟩

/-! ## Port configuration store -/

/-- The attributes of the `serial.Serial` object that `scale.py` reads
and writes (`port`, `baud_rate`, `parity`, `stop_bits`, `bytesize`).
`parity` holds a pyserial parity constant (a one-letter string);
`stop_bits` holds a pyserial stop-bit constant (1, 1.5 or 2);
`bytesize` holds a pyserial byte-size constant (5–8). -/
structure SerialPort where
  port : String
  baud_rate : Int
  parity : String
  stop_bits : ℚ
  bytesize : Nat
  deriving DecidableEq, Repr

/-- The reader built by `SerialScaleReader.__init__` with its default
arguments: port `COM1`, baud 9600, even parity, one stop bit, seven
data bits. -/
def defaultReader : SerialPort :=
  ⟨"COM1", 9600, "E", 1, 7⟩

/-- The dictionary returned by `get_settings` (same five values under
the keys `port`, `baud_rate`, `parity`, `stop_bits`, `byte_size`). -/
structure Settings where
  port : String
  baud_rate : Int
  parity : String
  stop_bits : ℚ
  byte_size : Nat
  deriving DecidableEq, Repr

/-- `SerialScaleReader.get_settings`. -/
def get_settings (r : SerialPort) : Settings :=
  ⟨r.port, r.baud_rate, r.parity, r.stop_bits, r.bytesize⟩

/-- The recognized keyword arguments of `update_settings`; a missing
key is `none`.  Values arriving over HTTP are strings. -/
structure Kwargs where
  port : Option String
  baud_rate : Option String
  parity : Option String
  stop_bits : Option String
  byte_size : Option String
  deriving DecidableEq, Repr

/-- The empty keyword mapping. -/
def noKwargs : Kwargs := ⟨none, none, none, none, none⟩

/-- One entry of the `setting_errors` dictionary. -/
structure SettingError where
  given_value : PyVal
  error : String
  deriving DecidableEq, Repr

/-- The `setting_errors` dictionary: at most one entry per field. -/
structure SettingErrors where
  port : Option SettingError
  baud_rate : Option SettingError
  parity : Option SettingError
  stop_bits : Option SettingError
  byte_size : Option SettingError
  deriving DecidableEq, Repr

/-- No errors recorded. -/
def noErrors : SettingErrors := ⟨none, none, none, none, none⟩

/-- The host environment `update_settings` consults:
`serial.tools.list_ports.grep(pattern)` (the ports matching a pattern)
and `serial.tools.list_ports.comports()` (the device names of all
attached ports, used in the `port` error message). -/
structure PortEnv where
  grep : String → List String
  comports : List String

/-- `PARITY_OPTIONS`: key test and lookup of the dict
`{none: N, odd: O, even: E, mark: M, space: S}` (values are the
pyserial parity constants). -/
def parityLookup (s : String) : Option String :=
  if s = "none" then some "N"
  else if s = "odd" then some "O"
  else if s = "even" then some "E"
  else if s = "mark" then some "M"
  else if s = "space" then some "S"
  else none

/-- `STOP_BITS_OPTIONS`: key test and lookup of
`{1: STOPBITS_ONE, 1.5: STOPBITS_ONE_POINT_FIVE, 2: STOPBITS_TWO}`;
the pyserial constants are numerically the keys themselves. -/
def stopBitsLookup (q : ℚ) : Option ℚ :=
  if q = 1 then some 1
  else if q = 3 / 2 then some (3 / 2)
  else if q = 2 then some 2
  else none

/-- `BYTE_SIZE_OPTIONS`: key test and lookup of
`{5: FIVEBITS, 6: SIXBITS, 7: SEVENBITS, 8: EIGHTBITS}`; the pyserial
constants are numerically the keys themselves. -/
def byteSizeLookup (n : Int) : Option Int :=
  if n = 5 then some 5
  else if n = 6 then some 6
  else if n = 7 then some 7
  else if n = 8 then some 8
  else none

/-- Python truthiness of `kwargs.get(key)` for string-valued keys:
`None` and the empty string are falsy. -/
def truthy : Option String → Option String
  | none => none
  | some s => if s = "" then none else some s

/-- The `parity` error message (`', '.join` over the dict keys). -/
def parityMsg : String :=
  "Parity must be one of the following: \'none\', \'odd\', \'even\', \'mark\', \'space\'"

/-- The `stop_bits` error message. -/
def stopBitsMsg : String :=
  "Stop bits must be one of the following: 1, 1.5, 2"

/-- The `byte_size` error message. -/
def byteSizeMsg : String :=
  "Byte size must be one of the following: 5, 6, 7, 8"

/-- The `port` error message for a given environment. -/
def portMsg (env : PortEnv) : String :=
  "Invalid port. Detected ports: " ++ String.intercalate ", " env.comports

/-- The `# Port` block of `update_settings`: if a truthy value was
given and `list_ports.grep` finds a match, apply it; otherwise record
an error carrying the given value and the detected-ports message. -/
def stepPort (env : PortEnv) (r : SerialPort) (v : Option String) :
    SerialPort × Option SettingError :=
  match truthy v with
  | none => (r, none)
  | some p =>
    if (env.grep p) ≠ [] then
      (⟨p, r.baud_rate, r.parity, r.stop_bits, r.bytesize⟩, none)
    else
      (r, some ⟨PyVal.str p, portMsg env⟩)

/-- The `# Baud Rate` block: `int(...)` is attempted and its result
assigned; a conversion failure records an error with the original
string. -/
def stepBaud (r : SerialPort) (v : Option String) :
    SerialPort × Option SettingError :=
  match truthy v with
  | none => (r, none)
  | some b =>
    match pyInt b with
    | some n => (⟨r.port, n, r.parity, r.stop_bits, r.bytesize⟩, none)
    | none => (r, some ⟨PyVal.str b, "Baud rate must be integer"⟩)

/-- The `# Parity` block: the local variable is lowercased before the
membership test, so the error entry records the lowercased string. -/
def stepParity (r : SerialPort) (v : Option String) :
    SerialPort × Option SettingError :=
  match truthy v with
  | none => (r, none)
  | some praw =>
    let p := pyLower praw
    match parityLookup p with
    | some c => (⟨r.port, r.baud_rate, c, r.stop_bits, r.bytesize⟩, none)
    | none => (r, some ⟨PyVal.str p, parityMsg⟩)

/-- The `# Stop Bits` block: the local variable is replaced by
`float(...)` when that succeeds (so the error entry records the float),
and kept as the string otherwise. -/
def stepStop (r : SerialPort) (v : Option String) :
    SerialPort × Option SettingError :=
  match truthy v with
  | none => (r, none)
  | some sraw =>
    match pyFloat sraw with
    | some q =>
      match stopBitsLookup q with
      | some c => (⟨r.port, r.baud_rate, r.parity, c, r.bytesize⟩, none)
      | none => (r, some ⟨PyVal.pyfloat q, stopBitsMsg⟩)
    | none => (r, some ⟨PyVal.str sraw, stopBitsMsg⟩)

/-- The `# Byte Size` block: the local variable is replaced by
`int(...)` when that succeeds (so the error entry records the int),
and kept as the string otherwise. -/
def stepByte (r : SerialPort) (v : Option String) :
    SerialPort × Option SettingError :=
  match truthy v with
  | none => (r, none)
  | some braw =>
    match pyInt braw with
    | some n =>
      match byteSizeLookup n with
      | some c => (⟨r.port, r.baud_rate, r.parity, r.stop_bits, c.toNat⟩, none)
      | none => (r, some ⟨PyVal.pyint n, byteSizeMsg⟩)
    | none => (r, some ⟨PyVal.str braw, byteSizeMsg⟩)

/-- `SerialScaleReader.update_settings`: processes the five recognized
keys in the order of the source, applying valid values to the live
configuration and recording a `SettingError` for invalid ones.  Returns
the updated configuration together with the error dictionary. -/
def update_settings (env : PortEnv) (r0 : SerialPort) (kw : Kwargs) :
    SerialPort × SettingErrors :=
  let p1 := stepPort env r0 kw.port
  let p2 := stepBaud p1.1 kw.baud_rate
  let p3 := stepParity p2.1 kw.parity
  let p4 := stepStop p3.1 kw.stop_bits
  let p5 := stepByte p4.1 kw.byte_size
  (p5.1, ⟨p1.2, p2.2, p3.2, p4.2, p5.2⟩)

/-- The value returned by `update_and_get_settings`: the error
dictionary and the settings snapshot. -/
structure UpdateResponse where
  errors : SettingErrors
  settings : Settings
  deriving DecidableEq, Repr

/-- `SerialScaleReader.update_and_get_settings`: the returned response
together with the post-call configuration state. -/
def update_and_get_settings (env : PortEnv) (r : SerialPort) (kw : Kwargs) :
    UpdateResponse × SerialPort :=
  let ue := update_settings env r kw
  (⟨ue.2, get_settings ue.1⟩, ue.1)

/-! ## Scale transaction engine (`read_weight`)

The serial device is modelled explicitly: opening or writing may raise
a `SerialException` (carrying its message), and the bytes the scale
produces are grouped into batches, batch `n` being what has arrived in
the buffer by the time of the `n`-th drain (the code drains the buffer
fully on each poll unless it returns, so no bytes carry over between
polls).  A read fault in the middle of a batch is an item of its own. -/

/-- One item the inner `open_reader.read(1)` loop can meet: a byte, or
a `SerialException` raised by the read call. -/
inductive SItem where
  | byte (b : Nat)
  | fault (msg : String)
  deriving DecidableEq, Repr

/-- The device as `read_weight` can observe it. -/
structure Device where
  openErr : Option String
  writeErr : Option String
  batches : List (List SItem)
  deriving DecidableEq, Repr

/-- The configuration fields of `SerialScaleReader` that `read_weight`
uses (the command bytes only matter through `writeErr`). -/
structure RWConfig where
  wait_interval_seconds : ℚ
  max_wait_time_seconds : ℚ
  read_weight_command : List Nat
  end_of_weight_char : Nat
  deriving DecidableEq, Repr

/-- The constructor defaults: interval 0.25 s, maximum 1.5 s, command
`b"W\r"`, end-of-weight marker `0x03`. -/
def defaultRWConfig : RWConfig :=
  ⟨1 / 4, 3 / 2, [87, 13], 3⟩

/-- An observable event of one `read_weight` call, in order: a timeout
check of the current accumulator value, a `time.sleep`, or one byte
drained from the buffer. -/
inductive Ev where
  | check (w : ℚ)
  | sleep
  | drainByte (b : Nat)
  deriving DecidableEq, Repr

/-- How a `read_weight` call ends.  `success`, `timeout` and
`serialError` are returned strings; `decodeFault` is an uncaught
`UnicodeDecodeError` escaping the call. -/
inductive RWResult where
  | success (s : String)
  | timeout
  | serialError (msg : String)
  | decodeFault (b : Nat)
  deriving DecidableEq, Repr

/-- The string a result is returned as (`none` when the call raises:
only the decode fault does). -/
def returnString : RWResult → Option String
  | RWResult.success s => some s
  | RWResult.timeout =>
    some "Scale response took too long, check connection and reconsider max_wait_time_seconds"
  | RWResult.serialError m => some ("Error: " ++ m)
  | RWResult.decodeFault _ => none

/-- Single-byte `bytes.decode("utf-8")`: bytes below 0x80 decode to the
corresponding character, anything else raises `UnicodeDecodeError`. -/
def decodeByte (b : Nat) : Option Char :=
  if b < 128 then some (Char.ofNat b) else none

/-- How one drain of the buffer ends. -/
inductive DrainOut where
  | found (acc : String)
  | exhausted (acc : String)
  | rfault (msg : String)
  | dfault (b : Nat)
  deriving DecidableEq, Repr

/-- The inner `while open_reader.in_waiting > 0` loop: read one item at
a time; a byte equal to the end-of-weight marker ends the call with the
accumulated string; any other byte is decoded and appended (raising on
a non-text byte); a read fault raises `SerialException`.  Also returns
the drained-byte events in order. -/
def drain (endChar : Nat) (acc : String) : List SItem → DrainOut × List Ev
  | [] => (DrainOut.exhausted acc, [])
  | SItem.fault m :: _ => (DrainOut.rfault m, [])
  | SItem.byte b :: rest =>
    if b = endChar then (DrainOut.found acc, [Ev.drainByte b])
    else
      match decodeByte b with
      | none => (DrainOut.dfault b, [Ev.drainByte b])
      | some c =>
        let r := drain endChar (acc.push c) rest
        (r.1, Ev.drainByte b :: r.2)

/-- The `while True` poll loop of `read_weight`, fuelled (`none` means
the fuel ran out before the loop did).  Each iteration: check the
accumulator against the maximum (returning the timeout message and
resetting the accumulator to 0 when it exceeds it), sleep one interval
and add it to the accumulator, then drain the buffer.  Returns the
result, the final accumulator value and the event trace. -/
def pollLoop (cfg : RWConfig) :
    Nat → ℚ → String → List (List SItem) → Option (RWResult × ℚ × List Ev)
  | 0, _, _, _ => none
  | fuel + 1, w, acc, batches =>
    if w > cfg.max_wait_time_seconds then
      some (RWResult.timeout, 0, [Ev.check w])
    else
      let w' := w + cfg.wait_interval_seconds
      let batch := batches.headD []
      let rest := batches.tail
      let d := drain cfg.end_of_weight_char acc batch
      match d.1 with
      | DrainOut.found s =>
        some (RWResult.success s, w', Ev.check w :: Ev.sleep :: d.2)
      | DrainOut.rfault m =>
        some (RWResult.serialError m, w', Ev.check w :: Ev.sleep :: d.2)
      | DrainOut.dfault b =>
        some (RWResult.decodeFault b, w', Ev.check w :: Ev.sleep :: d.2)
      | DrainOut.exhausted acc' =>
        match pollLoop cfg fuel w' acc' rest with
        | none => none
        | some (res, wfin, tr) =>
          some (res, wfin, Ev.check w :: Ev.sleep :: d.2 ++ tr)

/-- `SerialScaleReader.read_weight`: open the port and write the read
command (either step may raise a `SerialException`, caught and turned
into an `Error: …` string), then run the poll loop starting from the
instance's current `wait_time` accumulator `w0`. -/
def read_weight (fuel : Nat) (cfg : RWConfig) (dev : Device) (w0 : ℚ) :
    Option (RWResult × ℚ × List Ev) :=
  match dev.openErr with
  | some m => some (RWResult.serialError m, w0, [])
  | none =>
    match dev.writeErr with
    | some m => some (RWResult.serialError m, w0, [])
    | none => pollLoop cfg fuel w0 "" dev.batches

/-! ### Trace observations -/

/-- The number of `sleep` events of a trace. -/
def numSleeps (tr : List Ev) : Nat :=
  tr.countP (fun e => match e with | Ev.sleep => true | _ => false)

/-- The accumulator values checked against the maximum, in order. -/
def checkVals (tr : List Ev) : List ℚ :=
  tr.filterMap (fun e => match e with | Ev.check w => some w | _ => none)

/-- The bytes drained from the buffer, in order. -/
def drainedBytes (tr : List Ev) : List Nat :=
  tr.filterMap (fun e => match e with | Ev.drainByte b => some b | _ => none)

/-- Well-formedness of a trace as a word: iterations of the form
`check`, then `sleep`, then zero or more drained bytes; the trace may
end anywhere in an iteration (a final lone `check` is the timeout
exit).  The phase argument is 0 before a `check`, 1 before a `sleep`,
2 inside the drain. -/
def shapeFrom : Nat → List Ev → Bool
  | _, [] => true
  | 0, Ev.check _ :: t => shapeFrom 1 t
  | 1, Ev.sleep :: t => shapeFrom 2 t
  | 2, Ev.drainByte _ :: t => shapeFrom 2 t
  | 2, Ev.check _ :: t => shapeFrom 1 t
  | _, _ => false

/-- A whole-call trace starts at phase 0. -/
def shapeOk (tr : List Ev) : Bool := shapeFrom 0 tr

/-- `decodeBytes bs` is the string `read_weight` accumulates from the
bytes `bs` (successive `.decode("utf-8")` appends). -/
def decodeBytes (bs : List Nat) : String :=
  bs.foldl (fun a b => a.push (Char.ofNat b)) ""

/-- A batch that contains neither the end-of-weight marker, nor a read
fault, nor a byte outside the single-byte UTF-8 range. -/
def cleanBatch (endChar : Nat) (items : List SItem) : Prop :=
  ∀ it ∈ items, ∃ b, it = SItem.byte b ∧ b ≠ endChar ∧ b < 128

/-! ### Helper lemmas about traces and `drain` -/

/-- A trace of drained bytes only. -/
def drainOnly (evs : List Ev) : Prop :=
  ∀ e ∈ evs, ∃ b, e = Ev.drainByte b

lemma numSleeps_append (a b : List Ev) :
    numSleeps (a ++ b) = numSleeps a + numSleeps b := by
  simp [numSleeps, List.countP_append]

lemma checkVals_append (a b : List Ev) :
    checkVals (a ++ b) = checkVals a ++ checkVals b := by
  simp [checkVals, List.filterMap_append]

lemma drainedBytes_append (a b : List Ev) :
    drainedBytes (a ++ b) = drainedBytes a ++ drainedBytes b := by
  simp [drainedBytes, List.filterMap_append]

lemma mem_drainedBytes (evs : List Ev) (b : Nat) :
    b ∈ drainedBytes evs ↔ Ev.drainByte b ∈ evs := by
  simp only [drainedBytes, List.mem_filterMap]
  constructor
  · rintro ⟨e, he, hfe⟩
    cases e <;> simp_all
  · intro h
    exact ⟨Ev.drainByte b, h, rfl⟩

lemma drainOnly_numSleeps {evs : List Ev} (h : drainOnly evs) :
    numSleeps evs = 0 := by
  induction evs with
  | nil => rfl
  | cons e t ih =>
    obtain ⟨b, rfl⟩ := h e (List.mem_cons_self e t)
    have ht : drainOnly t := fun x hx => h x (List.mem_cons_of_mem _ hx)
    simp [numSleeps] at ih ⊢
    exact ih ht

lemma drainOnly_checkVals {evs : List Ev} (h : drainOnly evs) :
    checkVals evs = [] := by
  induction evs with
  | nil => rfl
  | cons e t ih =>
    obtain ⟨b, rfl⟩ := h e (List.mem_cons_self e t)
    have ht : drainOnly t := fun x hx => h x (List.mem_cons_of_mem _ hx)
    simp [checkVals] at ih ⊢
    exact ih ht

lemma drainOnly_shapeFrom {evs : List Ev} (h : drainOnly evs) (t : List Ev) :
    shapeFrom 2 (evs ++ t) = shapeFrom 2 t := by
  induction evs with
  | nil => rfl
  | cons e rest ih =>
    obtain ⟨b, rfl⟩ := h e (List.mem_cons_self e rest)
    have ht : drainOnly rest := fun x hx => h x (List.mem_cons_of_mem _ hx)
    simpa [shapeFrom] using ih ht

lemma drain_drainOnly (endChar : Nat) (acc : String) (items : List SItem) :
    drainOnly (drain endChar acc items).2 := by
  induction items generalizing acc with
  | nil => intro e he; simp [drain] at he
  | cons it rest ih =>
    intro e he
    cases it with
    | fault m => simp [drain] at he
    | byte b =>
      by_cases hb : b = endChar
      · simp [drain, hb] at he
        exact ⟨endChar, he⟩
      · by_cases hlt : b < 128
        · simp [drain, hb, decodeByte, hlt] at he
          rcases he with he | he
          · exact ⟨b, he⟩
          · exact ih (acc.push (Char.ofNat b)) e he
        · simp [drain, hb, decodeByte, hlt] at he
          exact ⟨b, he⟩

lemma drain_found_eq (endChar : Nat) (bs : List Nat) (rest : List SItem)
    (hbs : ∀ b ∈ bs, b ≠ endChar ∧ b < 128) :
    ∀ acc : String,
      drain endChar acc (bs.map SItem.byte ++ SItem.byte endChar :: rest)
        = (DrainOut.found (bs.foldl (fun a b => a.push (Char.ofNat b)) acc),
           (bs ++ [endChar]).map Ev.drainByte) := by
  induction bs with
  | nil => intro acc; simp [drain]
  | cons b t ih =>
    intro acc
    obtain ⟨hne, hlt⟩ := hbs b (List.mem_cons_self b t)
    have ht : ∀ x ∈ t, x ≠ endChar ∧ x < 128 :=
      fun x hx => hbs x (List.mem_cons_of_mem _ hx)
    simp [drain, hne, decodeByte, hlt, ih ht (acc.push (Char.ofNat b))]

lemma drain_clean_exhausted (endChar : Nat) (items : List SItem)
    (h : cleanBatch endChar items) :
    ∀ acc : String, ∃ acc', (drain endChar acc items).1 = DrainOut.exhausted acc' := by
  induction items with
  | nil => intro acc; exact ⟨acc, rfl⟩
  | cons it rest ih =>
    intro acc
    obtain ⟨b, rfl, hne, hlt⟩ := h it (List.mem_cons_self it rest)
    have hrest : cleanBatch endChar rest :=
      fun x hx => h x (List.mem_cons_of_mem _ hx)
    obtain ⟨acc', hacc'⟩ := ih hrest (acc.push (Char.ofNat b))
    exact ⟨acc', by simp [drain, hne, decodeByte, hlt, hacc']⟩

lemma drain_dfault_mem (endChar : Nat) (acc : String) (items : List SItem)
    (b : Nat) (h : (drain endChar acc items).1 = DrainOut.dfault b) :
    Ev.drainByte b ∈ (drain endChar acc items).2 ∧ b ≠ endChar ∧ 128 ≤ b := by
  induction items generalizing acc with
  | nil => simp [drain] at h
  | cons it rest ih =>
    cases it with
    | fault m => simp [drain] at h
    | byte b0 =>
      by_cases hb : b0 = endChar
      · simp [drain, hb] at h
      · by_cases hlt : b0 < 128
        · simp [drain, hb, decodeByte, hlt] at h ⊢
          obtain ⟨hmem, hprops⟩ := ih (acc.push (Char.ofNat b0)) h
          exact ⟨Or.inr hmem, hprops⟩
        · simp [drain, hb, decodeByte, hlt] at h ⊢
          subst h
          exact ⟨rfl, hb, Nat.le_of_not_lt hlt⟩

lemma drain_no_dfault_clean (endChar : Nat) (acc : String) (items : List SItem)
    (h : ∀ b', (drain endChar acc items).1 ≠ DrainOut.dfault b') :
    ∀ b, Ev.drainByte b ∈ (drain endChar acc items).2 → b = endChar ∨ b < 128 := by
  induction items generalizing acc with
  | nil => intro b hb; simp [drain] at hb
  | cons it rest ih =>
    intro b hb
    cases it with
    | fault m => simp [drain] at hb
    | byte b0 =>
      by_cases he : b0 = endChar
      · simp [drain, he] at hb
        exact Or.inl hb
      · by_cases hlt : b0 < 128
        · simp [drain, he, decodeByte, hlt] at hb h
          rcases hb with hb | hb
          · exact Or.inr (hb ▸ hlt)
          · exact ih (acc.push (Char.ofNat b0)) h b hb
        · exact absurd (by simp [drain, he, decodeByte, hlt]) (h b0)

/-! ### Trace bookkeeping lemmas -/

lemma numSleeps_nil : numSleeps [] = 0 := rfl

lemma checkVals_nil : checkVals [] = [] := rfl

lemma numSleeps_check (w : ℚ) (t : List Ev) :
    numSleeps (Ev.check w :: t) = numSleeps t := by
  simp [numSleeps, List.countP_cons]

lemma numSleeps_sleep (t : List Ev) :
    numSleeps (Ev.sleep :: t) = numSleeps t + 1 := by
  simp [numSleeps, List.countP_cons]

lemma checkVals_check (w : ℚ) (t : List Ev) :
    checkVals (Ev.check w :: t) = w :: checkVals t := by
  simp [checkVals]

lemma checkVals_sleep (t : List Ev) :
    checkVals (Ev.sleep :: t) = checkVals t := by
  simp [checkVals]

lemma drainedBytes_check (w : ℚ) (t : List Ev) :
    drainedBytes (Ev.check w :: t) = drainedBytes t := by
  simp [drainedBytes]

lemma drainedBytes_sleep (t : List Ev) :
    drainedBytes (Ev.sleep :: t) = drainedBytes t := by
  simp [drainedBytes]

lemma drainOnly_shape_nil {evs : List Ev} (h : drainOnly evs) :
    shapeFrom 2 evs = true := by
  simpa using drainOnly_shapeFrom h []

/-! ### Helper lemmas about the poll loop -/

lemma pollLoop_shape (cfg : RWConfig) :
    ∀ fuel w acc batches res wfin tr,
      pollLoop cfg fuel w acc batches = some (res, wfin, tr) →
      ∃ t', tr = Ev.check w :: t' ∧ shapeFrom 1 t' = true := by
  intro fuel
  induction fuel with
  | zero =>
    intro w acc batches res wfin tr h
    simp [pollLoop] at h
  | succ fuel ih =>
    intro w acc batches res wfin tr h
    rcases hd : drain cfg.end_of_weight_char acc (batches.headD []) with ⟨dout, devs⟩
    have hdo : drainOnly devs := by
      have h0 := drain_drainOnly cfg.end_of_weight_char acc (batches.headD [])
      rwa [hd] at h0
    simp only [pollLoop, hd] at h
    split at h
    · simp only [Option.some.injEq, Prod.mk.injEq] at h
      obtain ⟨rfl, rfl, rfl⟩ := h
      exact ⟨[], rfl, rfl⟩
    · cases dout with
      | found s =>
        simp only [Option.some.injEq, Prod.mk.injEq] at h
        obtain ⟨rfl, rfl, rfl⟩ := h
        exact ⟨Ev.sleep :: devs, rfl, by simp [shapeFrom, drainOnly_shape_nil hdo]⟩
      | rfault m =>
        simp only [Option.some.injEq, Prod.mk.injEq] at h
        obtain ⟨rfl, rfl, rfl⟩ := h
        exact ⟨Ev.sleep :: devs, rfl, by simp [shapeFrom, drainOnly_shape_nil hdo]⟩
      | dfault b =>
        simp only [Option.some.injEq, Prod.mk.injEq] at h
        obtain ⟨rfl, rfl, rfl⟩ := h
        exact ⟨Ev.sleep :: devs, rfl, by simp [shapeFrom, drainOnly_shape_nil hdo]⟩
      | exhausted acc2 =>
        dsimp only at h
        cases hrec : pollLoop cfg fuel (w + cfg.wait_interval_seconds) acc2 batches.tail with
        | none => rw [hrec] at h; simp at h
        | some out =>
          obtain ⟨res2, wfin2, tr2⟩ := out
          rw [hrec] at h
          simp only [Option.some.injEq, Prod.mk.injEq] at h
          obtain ⟨rfl, rfl, rfl⟩ := h
          obtain ⟨t2, htr2, hs2⟩ := ih _ _ _ _ _ _ hrec
          refine ⟨Ev.sleep :: devs ++ tr2, rfl, ?_⟩
          have h1 : shapeFrom 2 (devs ++ tr2) = shapeFrom 2 tr2 := drainOnly_shapeFrom hdo tr2
          rw [htr2] at h1
          rw [htr2]
          simp [shapeFrom, h1, hs2]

lemma pollLoop_wfin (cfg : RWConfig) :
    ∀ fuel w acc batches res wfin tr,
      pollLoop cfg fuel w acc batches = some (res, wfin, tr) →
      (res = RWResult.timeout → wfin = 0)
      ∧ (res ≠ RWResult.timeout →
          wfin = w + (numSleeps tr : ℚ) * cfg.wait_interval_seconds)
      ∧ (∀ s, res = RWResult.success s → 1 ≤ numSleeps tr) := by
  intro fuel
  induction fuel with
  | zero =>
    intro w acc batches res wfin tr h
    simp [pollLoop] at h
  | succ fuel ih =>
    intro w acc batches res wfin tr h
    rcases hd : drain cfg.end_of_weight_char acc (batches.headD []) with ⟨dout, devs⟩
    have hdo : drainOnly devs := by
      have h0 := drain_drainOnly cfg.end_of_weight_char acc (batches.headD [])
      rwa [hd] at h0
    have hns : numSleeps devs = 0 := drainOnly_numSleeps hdo
    simp only [pollLoop, hd] at h
    split at h
    · simp only [Option.some.injEq, Prod.mk.injEq] at h
      obtain ⟨rfl, rfl, rfl⟩ := h
      refine ⟨?_, ?_, ?_⟩
      · intro _
        rfl
      · intro hne
        exact absurd rfl hne
      · intro s hs
        cases hs
    · cases dout with
      | found s =>
        simp only [Option.some.injEq, Prod.mk.injEq] at h
        obtain ⟨rfl, rfl, rfl⟩ := h
        have hcnt : numSleeps (Ev.check w :: Ev.sleep :: devs) = 1 := by
          simp [numSleeps_check, numSleeps_sleep, hns]
        refine ⟨?_, ?_, ?_⟩
        · intro hto
          cases hto
        · intro _
          rw [hcnt]
          push_cast
          ring
        · intro s2 hs2
          omega
      | rfault m =>
        simp only [Option.some.injEq, Prod.mk.injEq] at h
        obtain ⟨rfl, rfl, rfl⟩ := h
        have hcnt : numSleeps (Ev.check w :: Ev.sleep :: devs) = 1 := by
          simp [numSleeps_check, numSleeps_sleep, hns]
        refine ⟨?_, ?_, ?_⟩
        · intro hto
          cases hto
        · intro _
          rw [hcnt]
          push_cast
          ring
        · intro s2 hs2
          cases hs2
      | dfault b =>
        simp only [Option.some.injEq, Prod.mk.injEq] at h
        obtain ⟨rfl, rfl, rfl⟩ := h
        have hcnt : numSleeps (Ev.check w :: Ev.sleep :: devs) = 1 := by
          simp [numSleeps_check, numSleeps_sleep, hns]
        refine ⟨?_, ?_, ?_⟩
        · intro hto
          cases hto
        · intro _
          rw [hcnt]
          push_cast
          ring
        · intro s2 hs2
          cases hs2
      | exhausted acc2 =>
        dsimp only at h
        cases hrec : pollLoop cfg fuel (w + cfg.wait_interval_seconds) acc2 batches.tail with
        | none => rw [hrec] at h; simp at h
        | some out =>
          obtain ⟨res2, wfin2, tr2⟩ := out
          rw [hrec] at h
          simp only [Option.some.injEq, Prod.mk.injEq] at h
          obtain ⟨rfl, rfl, rfl⟩ := h
          obtain ⟨ht0, ht1, ht2⟩ := ih _ _ _ _ _ _ hrec
          have hcnt : numSleeps (Ev.check w :: Ev.sleep :: devs ++ tr2)
              = numSleeps tr2 + 1 := by
            simp [numSleeps_check, numSleeps_sleep, numSleeps_append, hns]
          refine ⟨ht0, ?_, ?_⟩
          · intro hne
            rw [hcnt, ht1 hne]
            push_cast
            ring
          · intro s2 hs2
            omega

lemma pollLoop_checkVals (cfg : RWConfig) :
    ∀ fuel w acc batches res wfin tr,
      pollLoop cfg fuel w acc batches = some (res, wfin, tr) →
      checkVals tr = (List.range (checkVals tr).length).map
        (fun i : Nat => w + (i : ℚ) * cfg.wait_interval_seconds) := by
  intro fuel
  induction fuel with
  | zero =>
    intro w acc batches res wfin tr h
    simp [pollLoop] at h
  | succ fuel ih =>
    intro w acc batches res wfin tr h
    rcases hd : drain cfg.end_of_weight_char acc (batches.headD []) with ⟨dout, devs⟩
    have hdo : drainOnly devs := by
      have h0 := drain_drainOnly cfg.end_of_weight_char acc (batches.headD [])
      rwa [hd] at h0
    have hcv : checkVals devs = [] := drainOnly_checkVals hdo
    simp only [pollLoop, hd] at h
    split at h
    · simp only [Option.some.injEq, Prod.mk.injEq] at h
      obtain ⟨rfl, rfl, rfl⟩ := h
      simp [checkVals, List.range_succ]
    · cases dout with
      | found s =>
        simp only [Option.some.injEq, Prod.mk.injEq] at h
        obtain ⟨rfl, rfl, rfl⟩ := h
        rw [checkVals_check, checkVals_sleep, hcv]
        simp [List.range_succ]
      | rfault m =>
        simp only [Option.some.injEq, Prod.mk.injEq] at h
        obtain ⟨rfl, rfl, rfl⟩ := h
        rw [checkVals_check, checkVals_sleep, hcv]
        simp [List.range_succ]
      | dfault b =>
        simp only [Option.some.injEq, Prod.mk.injEq] at h
        obtain ⟨rfl, rfl, rfl⟩ := h
        rw [checkVals_check, checkVals_sleep, hcv]
        simp [List.range_succ]
      | exhausted acc2 =>
        dsimp only at h
        cases hrec : pollLoop cfg fuel (w + cfg.wait_interval_seconds) acc2 batches.tail with
        | none => rw [hrec] at h; simp at h
        | some out =>
          obtain ⟨res2, wfin2, tr2⟩ := out
          rw [hrec] at h
          simp only [Option.some.injEq, Prod.mk.injEq] at h
          obtain ⟨rfl, rfl, rfl⟩ := h
          have hih := ih _ _ _ _ _ _ hrec
          have hsplit : checkVals (Ev.check w :: Ev.sleep :: devs ++ tr2)
              = w :: checkVals tr2 := by
            simp [checkVals_check, checkVals_sleep, checkVals_append, hcv]
          rw [hsplit]
          simp only [List.length_cons]
          rw [List.range_succ_eq_map, List.map_cons, List.map_map]
          congr 1
          · simp
          · refine hih.trans (List.map_congr_left ?_)
            intro a _
            simp only [Function.comp_apply]
            push_cast
            ring

lemma pollLoop_dfault_iff (cfg : RWConfig) :
    ∀ fuel w acc batches res wfin tr,
      pollLoop cfg fuel w acc batches = some (res, wfin, tr) →
      ((∃ b, res = RWResult.decodeFault b)
        ↔ ∃ b, b ∈ drainedBytes tr ∧ b ≠ cfg.end_of_weight_char ∧ 128 ≤ b) := by
  intro fuel
  induction fuel with
  | zero =>
    intro w acc batches res wfin tr h
    simp [pollLoop] at h
  | succ fuel ih =>
    intro w acc batches res wfin tr h
    rcases hd : drain cfg.end_of_weight_char acc (batches.headD []) with ⟨dout, devs⟩
    simp only [pollLoop, hd] at h
    split at h
    · simp only [Option.some.injEq, Prod.mk.injEq] at h
      obtain ⟨rfl, rfl, rfl⟩ := h
      simp [drainedBytes]
    · cases dout with
      | found s =>
        simp only [Option.some.injEq, Prod.mk.injEq] at h
        obtain ⟨rfl, rfl, rfl⟩ := h
        constructor
        · rintro ⟨b, hb⟩
          cases hb
        · rintro ⟨b, hmem, hne, hge⟩
          exfalso
          rw [drainedBytes_check, drainedBytes_sleep, mem_drainedBytes] at hmem
          have hclean := drain_no_dfault_clean cfg.end_of_weight_char acc
            (batches.headD []) (by rw [hd]; intro b'; simp) b (by rw [hd]; exact hmem)
          rcases hclean with h1 | h1
          · exact hne h1
          · omega
      | rfault m =>
        simp only [Option.some.injEq, Prod.mk.injEq] at h
        obtain ⟨rfl, rfl, rfl⟩ := h
        constructor
        · rintro ⟨b, hb⟩
          cases hb
        · rintro ⟨b, hmem, hne, hge⟩
          exfalso
          rw [drainedBytes_check, drainedBytes_sleep, mem_drainedBytes] at hmem
          have hclean := drain_no_dfault_clean cfg.end_of_weight_char acc
            (batches.headD []) (by rw [hd]; intro b'; simp) b (by rw [hd]; exact hmem)
          rcases hclean with h1 | h1
          · exact hne h1
          · omega
      | dfault b0 =>
        simp only [Option.some.injEq, Prod.mk.injEq] at h
        obtain ⟨rfl, rfl, rfl⟩ := h
        have hmem := drain_dfault_mem cfg.end_of_weight_char acc (batches.headD [])
          b0 (by rw [hd])
        rw [hd] at hmem
        constructor
        · rintro ⟨b, hb⟩
          cases hb
          refine ⟨b0, ?_, hmem.2⟩
          rw [drainedBytes_check, drainedBytes_sleep, mem_drainedBytes]
          exact hmem.1
        · intro _
          exact ⟨b0, rfl⟩
      | exhausted acc2 =>
        dsimp only at h
        cases hrec : pollLoop cfg fuel (w + cfg.wait_interval_seconds) acc2 batches.tail with
        | none => rw [hrec] at h; simp at h
        | some out =>
          obtain ⟨res2, wfin2, tr2⟩ := out
          rw [hrec] at h
          simp only [Option.some.injEq, Prod.mk.injEq] at h
          obtain ⟨rfl, rfl, rfl⟩ := h
          have hih := ih _ _ _ _ _ _ hrec
          rw [hih]
          have hsplit : drainedBytes (Ev.check w :: Ev.sleep :: devs ++ tr2)
              = drainedBytes devs ++ drainedBytes tr2 := by
            simp [drainedBytes]
          constructor
          · rintro ⟨b, hmem, hne, hge⟩
            refine ⟨b, ?_, hne, hge⟩
            rw [hsplit]
            exact List.mem_append_right _ hmem
          · rintro ⟨b, hmem, hne, hge⟩
            rw [hsplit] at hmem
            rcases List.mem_append.mp hmem with h1 | h1
            · exfalso
              rw [mem_drainedBytes] at h1
              have hclean := drain_no_dfault_clean cfg.end_of_weight_char acc
                (batches.headD []) (by rw [hd]; intro b'; simp) b (by rw [hd]; exact h1)
              rcases hclean with h2 | h2
              · exact hne h2
              · omega
            · exact ⟨b, h1, hne, hge⟩

/-- Stepping lemma: a poll iteration whose timeout check trips. -/
lemma pollLoop_step_timeout (cfg : RWConfig) (fuel : Nat) (w : ℚ) (acc : String)
    (batches : List (List SItem)) (hw : w > cfg.max_wait_time_seconds) :
    pollLoop cfg (fuel + 1) w acc batches
      = some (RWResult.timeout, 0, [Ev.check w]) := by
  simp [pollLoop, hw]

/-- Stepping lemma: a poll iteration that drains its batch without
finding the marker and continues the loop. -/
lemma pollLoop_step_exhausted (cfg : RWConfig) (fuel : Nat) (w : ℚ)
    (acc acc2 : String) (batches : List (List SItem)) (res : RWResult)
    (wfin : ℚ) (tr : List Ev)
    (hw : ¬ w > cfg.max_wait_time_seconds)
    (hex : (drain cfg.end_of_weight_char acc (batches.headD [])).1
      = DrainOut.exhausted acc2)
    (hrec : pollLoop cfg fuel (w + cfg.wait_interval_seconds) acc2 batches.tail
      = some (res, wfin, tr)) :
    pollLoop cfg (fuel + 1) w acc batches
      = some (res, wfin, Ev.check w :: Ev.sleep ::
          (drain cfg.end_of_weight_char acc (batches.headD [])).2 ++ tr) := by
  rcases hd : drain cfg.end_of_weight_char acc (batches.headD []) with ⟨dout, devs⟩
  rw [hd] at hex
  simp only at hex
  subst hex
  simp only [pollLoop]
  rw [if_neg hw, hd]
  dsimp only
  rw [hrec]

/-! ## Concrete fixtures used by witnesses and counterexamples -/

/-- A device whose first poll batch is `"123"`, the marker, then one
more buffered byte. -/
def demoDevice : Device :=
  ⟨none, none, [[SItem.byte 49, SItem.byte 50, SItem.byte 51, SItem.byte 3, SItem.byte 99]]⟩

/-- A device that stays silent for six polls and then answers `"123"`
followed by the marker (a slow but successful read). -/
def slowDevice : Device :=
  ⟨none, none, [[], [], [], [], [], [],
    [SItem.byte 49, SItem.byte 50, SItem.byte 51, SItem.byte 3]]⟩

/-- A device whose response contains the non-UTF-8 byte `0xC8`. -/
def badByteDevice : Device :=
  ⟨none, none, [[SItem.byte 49, SItem.byte 200, SItem.byte 3]]⟩

/-- A device whose `write` raises a `SerialException`. -/
def writeFaultDevice : Device := ⟨none, none, []⟩

/-- The configuration of the spec's timeout scenario: interval 0.25 s,
maximum wait 0.5 s. -/
def shortRWConfig : RWConfig := ⟨1 / 4, 1 / 2, [87, 13], 3⟩

/-- A host with no attached serial devices. -/
def emptyPortEnv : PortEnv := ⟨fun _ => [], []⟩

/-- The configuration invariant the spec claims for the enumerated
fields: parity, stop bits and byte size hold pyserial constants from
their option sets. -/
def validState (r : SerialPort) : Prop :=
  (r.parity = "N" ∨ r.parity = "O" ∨ r.parity = "E" ∨ r.parity = "M" ∨ r.parity = "S")
  ∧ (r.stop_bits = 1 ∨ r.stop_bits = 3 / 2 ∨ r.stop_bits = 2)
  ∧ (r.bytesize = 5 ∨ r.bytesize = 6 ∨ r.bytesize = 7 ∨ r.bytesize = 8)

/-- A Python-falsy candidate value: absent, or the empty string. -/
def falsy (v : Option String) : Prop := v = none ∨ v = some ""

/-! ## Claim theorems -/

/-- C1, counterexample to the claim as stated: the elapsed-wait
accumulator persists across calls, and a successful slow read can leave
it at 1.75 s, above the 1.5 s maximum; the next call then returns the
timeout message even though the device emits `"123"` and the marker
within the first poll interval.  The first conjunct shows the state
1.75 s is reachable from a fresh reader by an ordinary successful read;
the second shows the subsequent data-ready call returning the timeout
result instead of `"123"`. -/
theorem claim_C1_counterexample :
    read_weight 8 defaultRWConfig slowDevice 0
      = some (RWResult.success "123", 7 / 4,
          [Ev.check 0, Ev.sleep, Ev.check (1 / 4), Ev.sleep, Ev.check (1 / 2), Ev.sleep,
           Ev.check (3 / 4), Ev.sleep, Ev.check 1, Ev.sleep, Ev.check (5 / 4), Ev.sleep,
           Ev.check (3 / 2), Ev.sleep, Ev.drainByte 49, Ev.drainByte 50, Ev.drainByte 51,
           Ev.drainByte 3])
    ∧ read_weight 1 defaultRWConfig demoDevice (7 / 4)
        = some (RWResult.timeout, 0, [Ev.check (7 / 4)])
    ∧ RWResult.timeout ≠ RWResult.success "123" := by
  refine ⟨?_, ?_, ?_⟩
  · norm_num [read_weight, pollLoop, slowDevice, defaultRWConfig, drain, decodeByte]
    rfl
  · norm_num [read_weight, pollLoop, demoDevice, defaultRWConfig]
  · decide

/-- C1 (amended): provided the entering elapsed-wait accumulator does
not exceed the configured maximum (as in the initial state), a
`read_weight` call whose device has text bytes followed by the marker
buffered within the first poll interval returns exactly the accumulated
bytes before the marker decoded as text, after a single sleep, draining
exactly those bytes and the marker and nothing after it; the marker is
not part of the returned string. -/
theorem claim_C1_amended (fuel : Nat) (cfg : RWConfig) (bs : List Nat)
    (rest : List SItem) (more : List (List SItem)) (w0 : ℚ)
    (hw : w0 ≤ cfg.max_wait_time_seconds)
    (hbs : ∀ b ∈ bs, b ≠ cfg.end_of_weight_char ∧ b < 128) :
    read_weight (fuel + 1) cfg
        ⟨none, none,
         (bs.map SItem.byte ++ SItem.byte cfg.end_of_weight_char :: rest) :: more⟩ w0
      = some (RWResult.success (decodeBytes bs),
          w0 + cfg.wait_interval_seconds,
          Ev.check w0 :: Ev.sleep :: (bs ++ [cfg.end_of_weight_char]).map Ev.drainByte) := by
  have hnot : ¬ w0 > cfg.max_wait_time_seconds := not_lt.mpr hw
  have hdr := drain_found_eq cfg.end_of_weight_char bs rest hbs ""
  simp only [read_weight, pollLoop]
  rw [if_neg hnot]
  dsimp only [List.headD, List.tail]
  rw [hdr]
  rfl

/-- C1 (amended), witness at a concrete input: device `"123"` + marker
+ one extra byte, fresh accumulator. -/
theorem claim_C1_amended_witness :
    read_weight 1 defaultRWConfig
        ⟨none, none,
         [[SItem.byte 49, SItem.byte 50, SItem.byte 51, SItem.byte 3, SItem.byte 99]]⟩ 0
      = some (RWResult.success (decodeBytes [49, 50, 51]),
          0 + defaultRWConfig.wait_interval_seconds,
          Ev.check 0 :: Ev.sleep :: ([49, 50, 51] ++ [3]).map Ev.drainByte) :=
  claim_C1_amended 0 defaultRWConfig [49, 50, 51] [SItem.byte 99] [] 0
    (by norm_num [defaultRWConfig]) (by decide)

/-- C2: with maximum wait 0.5 s and interval 0.25 s, a call against a
device that never emits the marker (and raises no fault) returns the
literal timeout sentinel with the elapsed-wait accumulator reset to 0,
so a subsequent call starts timing from zero; the timeout trips after
3 poll cycles, with the accumulator checked at 0, 0.25, 0.5 and 0.75 s
(the strict comparison lets the 0.5 s check pass). -/
theorem claim_C2 (dev : Device) (h1 : dev.openErr = none)
    (h2 : dev.writeErr = none)
    (hclean : ∀ batch ∈ dev.batches, cleanBatch 3 batch) :
    ∃ tr, read_weight 4 shortRWConfig dev 0 = some (RWResult.timeout, 0, tr)
      ∧ numSleeps tr = 3
      ∧ checkVals tr = [0, 1 / 4, 1 / 2, 3 / 4]
      ∧ returnString RWResult.timeout
          = some "Scale response took too long, check connection and reconsider max_wait_time_seconds" := by
  obtain ⟨oerr, werr, batches⟩ := dev
  simp only at h1 h2 hclean
  subst h1
  subst h2
  have hhead : ∀ (l : List (List SItem)), (∀ b ∈ l, cleanBatch 3 b) →
      cleanBatch 3 (l.headD []) ∧ (∀ b ∈ l.tail, cleanBatch 3 b) := by
    intro l hl
    cases l with
    | nil => exact ⟨fun it hit => absurd hit (List.not_mem_nil it), by simp⟩
    | cons x t =>
      exact ⟨hl x (List.mem_cons_self x t), fun b hb => hl b (List.mem_cons_of_mem _ hb)⟩
  obtain ⟨hc0, hl1⟩ := hhead batches hclean
  obtain ⟨hc1, hl2⟩ := hhead batches.tail hl1
  obtain ⟨hc2, _⟩ := hhead batches.tail.tail hl2
  obtain ⟨a1, hd1⟩ := drain_clean_exhausted 3 _ hc0 ""
  obtain ⟨a2, hd2⟩ := drain_clean_exhausted 3 _ hc1 a1
  obtain ⟨a3, hd3⟩ := drain_clean_exhausted 3 _ hc2 a2
  have s1 : pollLoop shortRWConfig 1 (0 + 1/4 + 1/4 + 1/4) a3 batches.tail.tail.tail
      = some (RWResult.timeout, 0, [Ev.check (0 + 1/4 + 1/4 + 1/4)]) :=
    pollLoop_step_timeout shortRWConfig 0 _ _ _ (by norm_num [shortRWConfig])
  have s2 := pollLoop_step_exhausted shortRWConfig 1 (0 + 1/4 + 1/4) a2 a3
    batches.tail.tail RWResult.timeout 0 _ (by norm_num [shortRWConfig]) hd3 s1
  have s3 := pollLoop_step_exhausted shortRWConfig 2 (0 + 1/4) a1 a2
    batches.tail RWResult.timeout 0 _ (by norm_num [shortRWConfig]) hd2 s2
  have s4 := pollLoop_step_exhausted shortRWConfig 3 0 "" a1
    batches RWResult.timeout 0 _ (by norm_num [shortRWConfig]) hd1 s3
  have hrw : read_weight 4 shortRWConfig ⟨none, none, batches⟩ 0
      = pollLoop shortRWConfig 4 0 "" batches := rfl
  refine ⟨_, hrw.trans s4, ?_, ?_, rfl⟩
  · have hn1 : numSleeps (drain shortRWConfig.end_of_weight_char "" (batches.headD [])).2 = 0 :=
      drainOnly_numSleeps (drain_drainOnly _ _ _)
    have hn2 : numSleeps (drain shortRWConfig.end_of_weight_char a1 (batches.tail.headD [])).2 = 0 :=
      drainOnly_numSleeps (drain_drainOnly _ _ _)
    have hn3 : numSleeps (drain shortRWConfig.end_of_weight_char a2 (batches.tail.tail.headD [])).2 = 0 :=
      drainOnly_numSleeps (drain_drainOnly _ _ _)
    simp only [numSleeps_append, numSleeps_check, numSleeps_sleep, numSleeps_nil,
      hn1, hn2, hn3]
  · have hv1 : checkVals (drain shortRWConfig.end_of_weight_char "" (batches.headD [])).2 = [] :=
      drainOnly_checkVals (drain_drainOnly _ _ _)
    have hv2 : checkVals (drain shortRWConfig.end_of_weight_char a1 (batches.tail.headD [])).2 = [] :=
      drainOnly_checkVals (drain_drainOnly _ _ _)
    have hv3 : checkVals (drain shortRWConfig.end_of_weight_char a2 (batches.tail.tail.headD [])).2 = [] :=
      drainOnly_checkVals (drain_drainOnly _ _ _)
    simp only [checkVals_append, checkVals_check, checkVals_sleep, checkVals_nil,
      hv1, hv2, hv3, List.nil_append]
    norm_num

/-- C2, witness at a concrete input: the silent device. -/
theorem claim_C2_witness :
    ∃ tr, read_weight 4 shortRWConfig ⟨none, none, []⟩ 0
        = some (RWResult.timeout, 0, tr)
      ∧ numSleeps tr = 3
      ∧ checkVals tr = [0, 1 / 4, 1 / 2, 3 / 4]
      ∧ returnString RWResult.timeout
          = some "Scale response took too long, check connection and reconsider max_wait_time_seconds" :=
  claim_C2 ⟨none, none, []⟩ rfl rfl (by intro b hb; simp at hb)

/-- C3: in every `read_weight` run, every loop iteration is a timeout
check, then a sleep, then the drained bytes (so the check precedes the
drain, and each sleep is followed by the next check); the checked
accumulator values form the arithmetic progression `w0 + i·interval`,
i.e. the accumulator sums the interval across iterations; and the
accumulator is reset to zero exactly on the timeout path, while every
other outcome leaves it at `w0` plus the slept intervals. -/
theorem claim_C3 (fuel : Nat) (cfg : RWConfig) (dev : Device) (w0 : ℚ)
    (res : RWResult) (wfin : ℚ) (tr : List Ev)
    (h : read_weight fuel cfg dev w0 = some (res, wfin, tr)) :
    shapeOk tr = true
    ∧ checkVals tr = (List.range (checkVals tr).length).map
        (fun i : Nat => w0 + (i : ℚ) * cfg.wait_interval_seconds)
    ∧ (res = RWResult.timeout → wfin = 0)
    ∧ (res ≠ RWResult.timeout →
        wfin = w0 + (numSleeps tr : ℚ) * cfg.wait_interval_seconds) := by
  rw [read_weight] at h
  cases hoe : dev.openErr with
  | some m =>
    rw [hoe] at h
    simp only [Option.some.injEq, Prod.mk.injEq] at h
    obtain ⟨rfl, rfl, rfl⟩ := h
    refine ⟨rfl, by simp [checkVals], ?_, ?_⟩
    · intro hto
      cases hto
    · intro _
      simp [numSleeps]
  | none =>
    rw [hoe] at h
    cases hwe : dev.writeErr with
    | some m =>
      rw [hwe] at h
      simp only [Option.some.injEq, Prod.mk.injEq] at h
      obtain ⟨rfl, rfl, rfl⟩ := h
      refine ⟨rfl, by simp [checkVals], ?_, ?_⟩
      · intro hto
        cases hto
      · intro _
        simp [numSleeps]
    | none =>
      rw [hwe] at h
      obtain ⟨t', rfl, hsf⟩ := pollLoop_shape cfg fuel w0 "" dev.batches res wfin tr h
      have hwl := pollLoop_wfin cfg fuel w0 "" dev.batches res wfin _ h
      have hcv := pollLoop_checkVals cfg fuel w0 "" dev.batches res wfin _ h
      exact ⟨by simp [shapeOk, shapeFrom, hsf], hcv, hwl.1, hwl.2.1⟩

/-- C3, witness at a concrete input: the `"123"` device. -/
theorem claim_C3_witness :
    shapeOk [Ev.check 0, Ev.sleep, Ev.drainByte 49, Ev.drainByte 50,
      Ev.drainByte 51, Ev.drainByte 3] = true
    ∧ checkVals [Ev.check 0, Ev.sleep, Ev.drainByte 49, Ev.drainByte 50,
        Ev.drainByte 51, Ev.drainByte 3]
      = (List.range (checkVals [Ev.check 0, Ev.sleep, Ev.drainByte 49, Ev.drainByte 50,
          Ev.drainByte 51, Ev.drainByte 3]).length).map
        (fun i : Nat => 0 + (i : ℚ) * defaultRWConfig.wait_interval_seconds)
    ∧ (RWResult.success "123" = RWResult.timeout → (1 / 4 : ℚ) = 0)
    ∧ (RWResult.success "123" ≠ RWResult.timeout →
        (1 / 4 : ℚ) = 0 + (numSleeps [Ev.check 0, Ev.sleep, Ev.drainByte 49,
          Ev.drainByte 50, Ev.drainByte 51, Ev.drainByte 3] : ℚ)
            * defaultRWConfig.wait_interval_seconds) :=
  claim_C3 2 defaultRWConfig demoDevice 0 (RWResult.success "123") (1 / 4)
    [Ev.check 0, Ev.sleep, Ev.drainByte 49, Ev.drainByte 50, Ev.drainByte 51,
     Ev.drainByte 3]
    (by norm_num [read_weight, pollLoop, demoDevice, defaultRWConfig, drain, decodeByte]; rfl)

/-- C4: a `read_weight` run raises past the call boundary (returns no
string) exactly when a drained byte other than the marker is outside
the single-byte UTF-8 range — a decode fault; every injected
open/write/read communication fault instead yields the caught result,
returned as the string `Error: ` followed by the fault message. -/
theorem claim_C4 (fuel : Nat) (cfg : RWConfig) (dev : Device) (w0 : ℚ)
    (res : RWResult) (wfin : ℚ) (tr : List Ev)
    (h : read_weight fuel cfg dev w0 = some (res, wfin, tr)) :
    (returnString res = none
      ↔ ∃ b, b ∈ drainedBytes tr ∧ b ≠ cfg.end_of_weight_char ∧ 128 ≤ b)
    ∧ (∀ m, res = RWResult.serialError m →
        returnString res = some ("Error: " ++ m)) := by
  rw [read_weight] at h
  cases hoe : dev.openErr with
  | some m =>
    rw [hoe] at h
    simp only [Option.some.injEq, Prod.mk.injEq] at h
    obtain ⟨rfl, rfl, rfl⟩ := h
    refine ⟨by simp [returnString, drainedBytes], ?_⟩
    intro m' hm
    cases hm
    rfl
  | none =>
    rw [hoe] at h
    cases hwe : dev.writeErr with
    | some m =>
      rw [hwe] at h
      simp only [Option.some.injEq, Prod.mk.injEq] at h
      obtain ⟨rfl, rfl, rfl⟩ := h
      refine ⟨by simp [returnString, drainedBytes], ?_⟩
      intro m' hm
      cases hm
      rfl
    | none =>
      rw [hwe] at h
      have hiff := pollLoop_dfault_iff cfg fuel w0 "" dev.batches res wfin tr h
      have hr : (returnString res = none) ↔ (∃ b, res = RWResult.decodeFault b) := by
        cases res <;> simp [returnString]
      refine ⟨hr.trans hiff, ?_⟩
      intro m hm
      cases hm
      rfl

/-- C4, witness at a concrete input: the device with byte `0xC8`. -/
theorem claim_C4_witness :
    (returnString (RWResult.decodeFault 200) = none
      ↔ ∃ b, b ∈ drainedBytes [Ev.check 0, Ev.sleep, Ev.drainByte 49, Ev.drainByte 200]
          ∧ b ≠ defaultRWConfig.end_of_weight_char ∧ 128 ≤ b)
    ∧ (∀ m, RWResult.decodeFault 200 = RWResult.serialError m →
        returnString (RWResult.decodeFault 200) = some ("Error: " ++ m)) :=
  claim_C4 2 defaultRWConfig badByteDevice 0 (RWResult.decodeFault 200) (1 / 4)
    [Ev.check 0, Ev.sleep, Ev.drainByte 49, Ev.drainByte 200]
    (by norm_num [read_weight, pollLoop, badByteDevice, defaultRWConfig, drain, decodeByte])

/-- C10, counterexample to the claim as stated: a communication fault
at `write` exits via the fault path with the accumulator still 0 (no
interval was ever slept), so the next invocation starts from zero, not
from a nonzero value as the claim asserts for every fault exit. -/
theorem claim_C10_counterexample :
    read_weight 1 defaultRWConfig ⟨none, some "boom", []⟩ 0
      = some (RWResult.serialError "boom", 0, [])
    ∧ returnString (RWResult.serialError "boom") = some "Error: boom" :=
  ⟨rfl, rfl⟩

/-- C10 (amended): the success and communication-fault exits do not
reset the elapsed-wait accumulator — it ends at the entering value plus
the intervals slept during the call (so a success, which always sleeps
at least once, leaves it strictly larger when the interval is
positive, while an immediate fault can leave it unchanged at zero);
only the timeout exit resets it to zero. -/
theorem claim_C10_amended (fuel : Nat) (cfg : RWConfig) (dev : Device) (w0 : ℚ)
    (res : RWResult) (wfin : ℚ) (tr : List Ev)
    (h : read_weight fuel cfg dev w0 = some (res, wfin, tr)) :
    (res ≠ RWResult.timeout →
      wfin = w0 + (numSleeps tr : ℚ) * cfg.wait_interval_seconds)
    ∧ (∀ s, res = RWResult.success s → 1 ≤ numSleeps tr)
    ∧ (res = RWResult.timeout → wfin = 0) := by
  rw [read_weight] at h
  cases hoe : dev.openErr with
  | some m =>
    rw [hoe] at h
    simp only [Option.some.injEq, Prod.mk.injEq] at h
    obtain ⟨rfl, rfl, rfl⟩ := h
    refine ⟨fun _ => by simp [numSleeps], ?_, ?_⟩
    · intro s hs
      cases hs
    · intro hto
      cases hto
  | none =>
    rw [hoe] at h
    cases hwe : dev.writeErr with
    | some m =>
      rw [hwe] at h
      simp only [Option.some.injEq, Prod.mk.injEq] at h
      obtain ⟨rfl, rfl, rfl⟩ := h
      refine ⟨fun _ => by simp [numSleeps], ?_, ?_⟩
      · intro s hs
        cases hs
      · intro hto
        cases hto
    | none =>
      rw [hwe] at h
      have hwl := pollLoop_wfin cfg fuel w0 "" dev.batches res wfin tr h
      exact ⟨hwl.2.1, hwl.2.2, hwl.1⟩

/-- C10 (amended), witness at a concrete input: the `"123"` device's
successful run keeps the accumulated 0.25 s. -/
theorem claim_C10_amended_witness :
    (RWResult.success "123" ≠ RWResult.timeout →
      (1 / 4 : ℚ) = 0 + (numSleeps [Ev.check 0, Ev.sleep, Ev.drainByte 49,
        Ev.drainByte 50, Ev.drainByte 51, Ev.drainByte 3] : ℚ)
          * defaultRWConfig.wait_interval_seconds)
    ∧ (∀ s, RWResult.success "123" = RWResult.success s →
        1 ≤ numSleeps [Ev.check 0, Ev.sleep, Ev.drainByte 49, Ev.drainByte 50,
          Ev.drainByte 51, Ev.drainByte 3])
    ∧ (RWResult.success "123" = RWResult.timeout → (1 / 4 : ℚ) = 0) :=
  claim_C10_amended 2 defaultRWConfig demoDevice 0 (RWResult.success "123") (1 / 4)
    [Ev.check 0, Ev.sleep, Ev.drainByte 49, Ev.drainByte 50, Ev.drainByte 51,
     Ev.drainByte 3]
    (by norm_num [read_weight, pollLoop, demoDevice, defaultRWConfig, drain, decodeByte]; rfl)

/-! ### Helper lemmas about the configuration steps -/

lemma stepPort_congr (env : PortEnv) (r : SerialPort) (v v2 : Option String)
    (h : truthy v = truthy v2) : stepPort env r v = stepPort env r v2 := by
  simp only [stepPort, h]

lemma stepBaud_congr (r : SerialPort) (v v2 : Option String)
    (h : truthy v = truthy v2) : stepBaud r v = stepBaud r v2 := by
  simp only [stepBaud, h]

lemma stepParity_congr (r : SerialPort) (v v2 : Option String)
    (h : truthy v = truthy v2) : stepParity r v = stepParity r v2 := by
  simp only [stepParity, h]

lemma stepStop_congr (r : SerialPort) (v v2 : Option String)
    (h : truthy v = truthy v2) : stepStop r v = stepStop r v2 := by
  simp only [stepStop, h]

lemma stepByte_congr (r : SerialPort) (v v2 : Option String)
    (h : truthy v = truthy v2) : stepByte r v = stepByte r v2 := by
  simp only [stepByte, h]

lemma stepPort_valid (env : PortEnv) (r : SerialPort) (v : Option String)
    (h : validState r) : validState (stepPort env r v).1 := by
  cases htv : truthy v with
  | none => simpa [stepPort, htv] using h
  | some p =>
    by_cases hg : (env.grep p) ≠ []
    · simp only [stepPort, htv, if_pos hg]
      exact h
    · simp only [stepPort, htv, if_neg hg]
      exact h

lemma stepBaud_valid (r : SerialPort) (v : Option String)
    (h : validState r) : validState (stepBaud r v).1 := by
  cases htv : truthy v with
  | none => simpa [stepBaud, htv] using h
  | some b =>
    cases hpi : pyInt b with
    | none => simpa [stepBaud, htv, hpi] using h
    | some n =>
      simp only [stepBaud, htv, hpi]
      exact h

lemma stepParity_valid (r : SerialPort) (v : Option String)
    (h : validState r) : validState (stepParity r v).1 := by
  cases htv : truthy v with
  | none => simpa [stepParity, htv] using h
  | some praw =>
    cases hpl : parityLookup (pyLower praw) with
    | none => simpa [stepParity, htv, hpl] using h
    | some c =>
      have hc : c = "N" ∨ c = "O" ∨ c = "E" ∨ c = "M" ∨ c = "S" := by
        unfold parityLookup at hpl
        split_ifs at hpl <;> simp_all
      simp only [stepParity, htv, hpl]
      exact ⟨hc, h.2.1, h.2.2⟩

lemma stepStop_valid (r : SerialPort) (v : Option String)
    (h : validState r) : validState (stepStop r v).1 := by
  cases htv : truthy v with
  | none => simpa [stepStop, htv] using h
  | some sraw =>
    cases hpf : pyFloat sraw with
    | none => simpa [stepStop, htv, hpf] using h
    | some q =>
      cases hsl : stopBitsLookup q with
      | none => simpa [stepStop, htv, hpf, hsl] using h
      | some c =>
        have hc : c = 1 ∨ c = 3 / 2 ∨ c = 2 := by
          unfold stopBitsLookup at hsl
          split_ifs at hsl <;> simp_all
        simp only [stepStop, htv, hpf, hsl]
        exact ⟨h.1, hc, h.2.2⟩

lemma stepByte_valid (r : SerialPort) (v : Option String)
    (h : validState r) : validState (stepByte r v).1 := by
  cases htv : truthy v with
  | none => simpa [stepByte, htv] using h
  | some braw =>
    cases hpi : pyInt braw with
    | none => simpa [stepByte, htv, hpi] using h
    | some n =>
      cases hbl : byteSizeLookup n with
      | none => simpa [stepByte, htv, hpi, hbl] using h
      | some c =>
        have hc : c.toNat = 5 ∨ c.toNat = 6 ∨ c.toNat = 7 ∨ c.toNat = 8 := by
          unfold byteSizeLookup at hbl
          split_ifs at hbl <;> simp_all <;> omega
        simp only [stepByte, htv, hpi, hbl]
        exact ⟨h.1, h.2.1, hc⟩

/-- C5, counterexample to the claim as stated: for parity, the local
variable is lowercased before validation, so the error entry records
the lowercased string, not the original raw value: on input `"ODDX"`
the entry records `"oddx"`. -/
theorem claim_C5_counterexample :
    update_settings emptyPortEnv defaultReader ⟨none, none, some "ODDX", none, none⟩
      = (defaultReader,
         ⟨none, none, some ⟨PyVal.str "oddx", parityMsg⟩, none, none⟩)
    ∧ ("oddx" : String) ≠ "ODDX" := by
  have hlow : pyLower "ODDX" = "oddx" := by decide
  have hpar : parityLookup "oddx" = none := by decide
  constructor
  · simp [update_settings, stepPort, stepBaud, stepParity, stepStop, stepByte,
      truthy, hlow, hpar]
  · decide

/-- C5 (amended): an invalid non-empty value for a recognized field
leaves the stored setting unchanged and records an error entry whose
`given_value` is the value as the validator holds it at error time —
the original string for port and baud rate, the lowercased string for
parity, and the numerically converted value for stop bits and byte
size when conversion succeeded (the original string otherwise) —
together with the message naming the valid options; other fields
supplied in the same call are still validated and applied (final
conjunct: an invalid parity does not block a valid baud rate). -/
theorem claim_C5_amended (env : PortEnv) (r : SerialPort) :
    (∀ s, s ≠ "" → env.grep s = [] →
      update_settings env r ⟨some s, none, none, none, none⟩
        = (r, ⟨some ⟨PyVal.str s, portMsg env⟩, none, none, none, none⟩))
    ∧ (∀ s, s ≠ "" → pyInt s = none →
      update_settings env r ⟨none, some s, none, none, none⟩
        = (r, ⟨none, some ⟨PyVal.str s, "Baud rate must be integer"⟩, none, none, none⟩))
    ∧ (∀ s, s ≠ "" → parityLookup (pyLower s) = none →
      update_settings env r ⟨none, none, some s, none, none⟩
        = (r, ⟨none, none, some ⟨PyVal.str (pyLower s), parityMsg⟩, none, none⟩))
    ∧ (∀ s q, s ≠ "" → pyFloat s = some q → stopBitsLookup q = none →
      update_settings env r ⟨none, none, none, some s, none⟩
        = (r, ⟨none, none, none, some ⟨PyVal.pyfloat q, stopBitsMsg⟩, none⟩))
    ∧ (∀ s, s ≠ "" → pyFloat s = none →
      update_settings env r ⟨none, none, none, some s, none⟩
        = (r, ⟨none, none, none, some ⟨PyVal.str s, stopBitsMsg⟩, none⟩))
    ∧ (∀ s n, s ≠ "" → pyInt s = some n → byteSizeLookup n = none →
      update_settings env r ⟨none, none, none, none, some s⟩
        = (r, ⟨none, none, none, none, some ⟨PyVal.pyint n, byteSizeMsg⟩⟩))
    ∧ (∀ s, s ≠ "" → pyInt s = none →
      update_settings env r ⟨none, none, none, none, some s⟩
        = (r, ⟨none, none, none, none, some ⟨PyVal.str s, byteSizeMsg⟩⟩))
    ∧ (∀ sp sb n, sp ≠ "" → parityLookup (pyLower sp) = none →
        sb ≠ "" → pyInt sb = some n →
      update_settings env r ⟨none, some sb, some sp, none, none⟩
        = (⟨r.port, n, r.parity, r.stop_bits, r.bytesize⟩,
           ⟨none, none, some ⟨PyVal.str (pyLower sp), parityMsg⟩, none, none⟩)) := by
  refine ⟨?_, ?_, ?_, ?_, ?_, ?_, ?_, ?_⟩
  · intro s hs hg
    simp [update_settings, stepPort, stepBaud, stepParity, stepStop, stepByte,
      truthy, hs, hg]
  · intro s hs hpi
    simp [update_settings, stepPort, stepBaud, stepParity, stepStop, stepByte,
      truthy, hs, hpi]
  · intro s hs hpl
    simp [update_settings, stepPort, stepBaud, stepParity, stepStop, stepByte,
      truthy, hs, hpl]
  · intro s q hs hpf hsl
    simp [update_settings, stepPort, stepBaud, stepParity, stepStop, stepByte,
      truthy, hs, hpf, hsl]
  · intro s hs hpf
    simp [update_settings, stepPort, stepBaud, stepParity, stepStop, stepByte,
      truthy, hs, hpf]
  · intro s n hs hpi hbl
    simp [update_settings, stepPort, stepBaud, stepParity, stepStop, stepByte,
      truthy, hs, hpi, hbl]
  · intro s hs hpi
    simp [update_settings, stepPort, stepBaud, stepParity, stepStop, stepByte,
      truthy, hs, hpi]
  · intro sp sb n hsp hpl hsb hpi
    simp [update_settings, stepPort, stepBaud, stepParity, stepStop, stepByte,
      truthy, hsp, hpl, hsb, hpi]

/-- C5 (amended), witness at a concrete input: invalid parity
`"ODDX"` records the lowercased `"oddx"`. -/
theorem claim_C5_amended_witness :
    update_settings emptyPortEnv defaultReader ⟨none, none, some "ODDX", none, none⟩
      = (defaultReader,
         ⟨none, none, some ⟨PyVal.str (pyLower "ODDX"), parityMsg⟩, none, none⟩) :=
  (claim_C5_amended emptyPortEnv defaultReader).2.2.1 "ODDX" (by decide) (by decide)

/-- C6: every valid value of an enumerated field is applied with no
error entry for the field, and `get_settings` afterwards reflects the
applied pyserial constant exactly: parity accepts its option set
case-insensitively, stop bits accepts any string parsing to 1, 1.5 or
2, byte size any string parsing to 5–8, and baud rate any string
parsing as an integer. -/
theorem claim_C6 (env : PortEnv) (r : SerialPort) :
    (∀ s v, s ≠ "" → parityLookup (pyLower s) = some v →
      (update_settings env r ⟨none, none, some s, none, none⟩).2 = noErrors
      ∧ (get_settings (update_settings env r ⟨none, none, some s, none, none⟩).1).parity = v)
    ∧ (∀ s q v, s ≠ "" → pyFloat s = some q → stopBitsLookup q = some v →
      (update_settings env r ⟨none, none, none, some s, none⟩).2 = noErrors
      ∧ (get_settings (update_settings env r ⟨none, none, none, some s, none⟩).1).stop_bits = v)
    ∧ (∀ s n v, s ≠ "" → pyInt s = some n → byteSizeLookup n = some v →
      (update_settings env r ⟨none, none, none, none, some s⟩).2 = noErrors
      ∧ (get_settings (update_settings env r ⟨none, none, none, none, some s⟩).1).byte_size = v.toNat)
    ∧ (∀ s n, s ≠ "" → pyInt s = some n →
      (update_settings env r ⟨none, some s, none, none, none⟩).2 = noErrors
      ∧ (get_settings (update_settings env r ⟨none, some s, none, none, none⟩).1).baud_rate = n) := by
  refine ⟨?_, ?_, ?_, ?_⟩
  · intro s v hs hv
    constructor <;> simp [update_settings, stepPort, stepBaud, stepParity,
      stepStop, stepByte, truthy, hs, hv, get_settings, noErrors]
  · intro s q v hs hq hv
    constructor <;> simp [update_settings, stepPort, stepBaud, stepParity,
      stepStop, stepByte, truthy, hs, hq, hv, get_settings, noErrors]
  · intro s n v hs hn hv
    constructor <;> simp [update_settings, stepPort, stepBaud, stepParity,
      stepStop, stepByte, truthy, hs, hn, hv, get_settings, noErrors]
  · intro s n hs hn
    constructor <;> simp [update_settings, stepPort, stepBaud, stepParity,
      stepStop, stepByte, truthy, hs, hn, get_settings, noErrors]

/-- C6, witness at concrete inputs: parity `"EVEN"`, stop bits
`"1.5"`, byte size `"8"`, baud rate `"38400"`. -/
theorem claim_C6_witness :
    ((update_settings emptyPortEnv defaultReader ⟨none, none, some "EVEN", none, none⟩).2 = noErrors
      ∧ (get_settings (update_settings emptyPortEnv defaultReader
          ⟨none, none, some "EVEN", none, none⟩).1).parity = "E")
    ∧ ((update_settings emptyPortEnv defaultReader ⟨none, none, none, some "1.5", none⟩).2 = noErrors
      ∧ (get_settings (update_settings emptyPortEnv defaultReader
          ⟨none, none, none, some "1.5", none⟩).1).stop_bits = 3 / 2)
    ∧ ((update_settings emptyPortEnv defaultReader ⟨none, none, none, none, some "8"⟩).2 = noErrors
      ∧ (get_settings (update_settings emptyPortEnv defaultReader
          ⟨none, none, none, none, some "8"⟩).1).byte_size = (8 : Int).toNat)
    ∧ ((update_settings emptyPortEnv defaultReader ⟨none, some "38400", none, none, none⟩).2 = noErrors
      ∧ (get_settings (update_settings emptyPortEnv defaultReader
          ⟨none, some "38400", none, none, none⟩).1).baud_rate = 38400) :=
  ⟨(claim_C6 emptyPortEnv defaultReader).1 "EVEN" "E" (by decide) (by decide),
   (claim_C6 emptyPortEnv defaultReader).2.1 "1.5" (3 / 2) (3 / 2) (by decide)
     (by rw [pyFloat, (show pyFloatRaw "1.5" = some (false, 1, 5, 1) by decide)]
         norm_num [ratOfParts])
     (by norm_num [stopBitsLookup]),
   (claim_C6 emptyPortEnv defaultReader).2.2.1 "8" 8 8 (by decide) (by decide) (by decide),
   (claim_C6 emptyPortEnv defaultReader).2.2.2 "38400" 38400 (by decide) (by decide)⟩

/-- C7: a recognized key carrying an empty (Python-falsy) string is
treated exactly like an absent key: an all-empty-string candidate
changes nothing and reports no errors, and any two candidates whose
fields are pairwise equal-or-both-falsy produce identical results —
absence and falsy-emptiness are indistinguishable. -/
theorem claim_C7 (env : PortEnv) (r : SerialPort) :
    update_settings env r ⟨some "", some "", some "", some "", some ""⟩ = (r, noErrors)
    ∧ (∀ kw kw2 : Kwargs,
        (kw.port = kw2.port ∨ (falsy kw.port ∧ falsy kw2.port)) →
        (kw.baud_rate = kw2.baud_rate ∨ (falsy kw.baud_rate ∧ falsy kw2.baud_rate)) →
        (kw.parity = kw2.parity ∨ (falsy kw.parity ∧ falsy kw2.parity)) →
        (kw.stop_bits = kw2.stop_bits ∨ (falsy kw.stop_bits ∧ falsy kw2.stop_bits)) →
        (kw.byte_size = kw2.byte_size ∨ (falsy kw.byte_size ∧ falsy kw2.byte_size)) →
        update_settings env r kw = update_settings env r kw2) := by
  have htr : ∀ a b : Option String,
      (a = b ∨ (falsy a ∧ falsy b)) → truthy a = truthy b := by
    rintro a b (rfl | ⟨ha, hb⟩)
    · rfl
    · rcases ha with rfl | rfl <;> rcases hb with rfl | rfl <;> rfl
  constructor
  · simp [update_settings, stepPort, stepBaud, stepParity, stepStop, stepByte,
      truthy, noErrors]
  · intro kw kw2 h1 h2 h3 h4 h5
    simp only [update_settings]
    rw [stepPort_congr env r _ _ (htr _ _ h1)]
    rw [stepBaud_congr _ _ _ (htr _ _ h2)]
    rw [stepParity_congr _ _ _ (htr _ _ h3)]
    rw [stepStop_congr _ _ _ (htr _ _ h4)]
    rw [stepByte_congr _ _ _ (htr _ _ h5)]

/-- C7, witness at a concrete input: a candidate with `port` set to
the empty string acts exactly like the empty candidate. -/
theorem claim_C7_witness :
    update_settings emptyPortEnv defaultReader ⟨some "", some "", some "", some "", some ""⟩
      = (defaultReader, noErrors)
    ∧ update_settings emptyPortEnv defaultReader ⟨some "", none, none, none, none⟩
        = update_settings emptyPortEnv defaultReader noKwargs :=
  ⟨(claim_C7 emptyPortEnv defaultReader).1,
   (claim_C7 emptyPortEnv defaultReader).2 ⟨some "", none, none, none, none⟩ noKwargs
     (Or.inr ⟨Or.inr rfl, Or.inl rfl⟩) (Or.inl rfl) (Or.inl rfl) (Or.inl rfl) (Or.inl rfl)⟩

/-- C8: `update_and_get_settings` with an empty candidate returns an
empty error map and the unchanged current settings, leaving the
configuration untouched; and for every candidate it returns both the
error map of `update_settings` and the settings snapshot of
`get_settings` on the post-update configuration, whether or not errors
occurred. -/
theorem claim_C8 (env : PortEnv) (r : SerialPort) :
    update_and_get_settings env r noKwargs = (⟨noErrors, get_settings r⟩, r)
    ∧ ∀ kw : Kwargs,
        (update_and_get_settings env r kw).1.errors = (update_settings env r kw).2
        ∧ (update_and_get_settings env r kw).1.settings
            = get_settings (update_settings env r kw).1 := by
  constructor
  · simp [update_and_get_settings, update_settings, stepPort, stepBaud,
      stepParity, stepStop, stepByte, truthy, noKwargs, noErrors]
  · intro kw
    exact ⟨rfl, rfl⟩

/-- C9, counterexample to the claim as stated: `int("-5")` succeeds,
so `update_settings` stores the non-positive baud rate −5 without any
error entry — the stored baud rate is not always a positive integer. -/
theorem claim_C9_counterexample :
    (update_settings emptyPortEnv defaultReader ⟨none, some "-5", none, none, none⟩).1.baud_rate = -5
    ∧ (update_settings emptyPortEnv defaultReader ⟨none, some "-5", none, none, none⟩).2 = noErrors
    ∧ ¬ (0 < (-5 : Int)) := by
  refine ⟨?_, ?_, ?_⟩ <;> decide

/-- C9 (amended): the enumerated fields do satisfy the invariant — in
the initial state and after any `update_settings` call, parity, stop
bits and byte size hold values from their option sets; the baud rate
is an integer but is subject to no positivity or range check. -/
theorem claim_C9_amended :
    validState defaultReader
    ∧ ∀ (env : PortEnv) (r : SerialPort) (kw : Kwargs),
        validState r → validState (update_settings env r kw).1 := by
  constructor
  · exact ⟨Or.inr (Or.inr (Or.inl rfl)), Or.inl rfl, Or.inr (Or.inr (Or.inl rfl))⟩
  · intro env r kw hr
    have h5 := stepByte_valid _ kw.byte_size
      (stepStop_valid _ kw.stop_bits
        (stepParity_valid _ kw.parity
          (stepBaud_valid _ kw.baud_rate
            (stepPort_valid env r kw.port hr))))
    simpa only [update_settings] using h5

/-- C9 (amended), witness at a concrete input: the invariant holds
after applying parity `"odd"` to the default configuration. -/
theorem claim_C9_amended_witness :
    validState defaultReader
    ∧ validState (update_settings emptyPortEnv defaultReader
        ⟨none, none, some "odd", none, none⟩).1 :=
  ⟨⟨Or.inr (Or.inr (Or.inl rfl)), Or.inl rfl, Or.inr (Or.inr (Or.inl rfl))⟩,
   claim_C9_amended.2 emptyPortEnv defaultReader ⟨none, none, some "odd", none, none⟩
     ⟨Or.inr (Or.inr (Or.inl rfl)), Or.inl rfl, Or.inr (Or.inr (Or.inl rfl))⟩⟩

end SerialScale
